import Mathlib

/-!
# FundManagerEngine — a shallow embedding

This file embeds the pyramid position-management state machine
(`FundManagerEngine`) of the repository in Lean 4 and proves properties of
its `evaluate` decision cascade and its state-mutating execute operations.

Modelling conventions:
* JavaScript `number` is modelled by `ℚ` (exact rational arithmetic).
* Dates (ISO `YYYY-MM-DD` strings) are modelled as `ℕ` day numbers.  The
  source computes `Math.floor(|d2 - d1| ms / 86400000)`; since ISO date
  strings parse to UTC midnight, the millisecond difference is an exact
  whole number of days, so the day difference is the absolute difference
  of day numbers.
* The human-readable `reason` strings of `TradingSignal` are modelled by an
  inductive `Reason` carrying the numeric payloads that the source
  interpolates into each string (before decimal formatting).
* `evaluate_market` both returns a signal and may mutate `peakPrice`; it is
  modelled as a function returning the signal together with the new state.
-/

namespace AlphaFund

/-- The trading actions of `TradingAction` in `types.ts`. -/
inductive TradingAction where
  | BUY
  | SELL
  | HOLD
  | SELL_ALL
  | WAIT
deriving DecidableEq, Repr

/-- Structured content of the `reason` strings produced by the engine,
one constructor per `return` site, carrying the interpolated numbers. -/
inductive Reason where
  | logicFalsified
  | blackSwan (dailyChange : ℚ)
  | cooldown (daysLeft : ℕ)
  | openLevel1
  | fullPosition
  | pyramidBuy (level : ℕ) (dropFromLastBuy : ℚ)
  | trailingStop (peakPrice drawdown : ℚ)
  | ma20Warning (currentPrice ma20 : ℚ)
  | profitTaking (roi sellRatio : ℚ)
  | waitForDip (triggerPrice : ℚ)
  | holding (roi : ℚ)
deriving DecidableEq, Repr

/-- `TradingSignal`: the advisory output of `evaluate_market`.  The source
sets `pyramidLevel` at every return site, so it is not optional here;
`roi` is only set at some sites and stays optional. -/
structure TradingSignal where
  action : TradingAction
  shares : ℚ
  reason : Reason
  roi : Option ℚ
  pyramidLevel : ℕ
deriving DecidableEq, Repr

/-- A record pushed by `recordOperation`:
`{ date, action, price, shares, positionAfter }`. -/
structure TradingOperation where
  date : ℕ
  action : TradingAction
  price : ℚ
  shares : ℚ
  positionAfter : ℚ
deriving DecidableEq, Repr

/-- `FundTradingState` from `types.ts`. -/
structure FundTradingState where
  fundCode : String
  positionSize : ℚ
  avgCost : ℚ
  peakPrice : ℚ
  lastOpDate : Option ℕ
  logicStatus : Bool
  pyramidLevel : ℕ
  operationHistory : List TradingOperation
  lastBuyPrice : ℚ
deriving DecidableEq, Repr

/-- One entry of `PYRAMID_CONFIG`: trigger drop, units to buy, cumulative
target position. -/
structure PyramidCfg where
  dropTrigger : ℚ
  shares : ℚ
  totalPosition : ℚ
deriving DecidableEq, Repr

/-- `PYRAMID_CONFIG`, a record keyed by `PyramidLevel` (0–4 in the TS
type); levels outside 0–4 are unreachable in the source and map to the
level-0 entry here. -/
def PYRAMID_CONFIG : ℕ → PyramidCfg
  | 1 => ⟨0, 2, 20⟩
  | 2 => ⟨10/100, 2, 40⟩
  | 3 => ⟨15/100, 3, 70⟩
  | 4 => ⟨20/100, 3, 100⟩
  | _ => ⟨0, 0, 0⟩

/-- One entry of `PROFIT_TAKING_CONFIG`. -/
structure ProfitCfg where
  roiThreshold : ℚ
  sellRatio : ℚ
deriving DecidableEq, Repr

/-- `PROFIT_TAKING_CONFIG`: ROI tiers in ascending order. -/
def PROFIT_TAKING_CONFIG : List ProfitCfg :=
  [⟨15/100, 20/100⟩, ⟨30/100, 30/100⟩, ⟨50/100, 20/100⟩]

/-- `COOLDOWN_DAYS`. -/
def COOLDOWN_DAYS : ℕ := 14

/-- `TRAILING_STOP_RATIO`. -/
def TRAILING_STOP_RATIO : ℚ := 8/100

/-- `BLACK_SWAN_DROP`. -/
def BLACK_SWAN_DROP : ℚ := 7/100

/-- `daysBetween`: whole-day absolute difference of two dates (see the
header note on the date model). -/
def daysBetween (d1 d2 : ℕ) : ℕ := max d1 d2 - min d1 d2

/-- The freshly constructed state of the `FundManagerEngine` constructor
with no `initialState` override. -/
def initState (fundCode : String) : FundTradingState :=
  ⟨fundCode, 0, 0, 0, none, true, 0, [], 0⟩

/-- `calculateROI`: guarded ROI relative to average cost. -/
def calculateROI (s : FundTradingState) (currentPrice : ℚ) : ℚ :=
  if s.avgCost = 0 ∨ s.positionSize = 0 then 0
  else (currentPrice - s.avgCost) / s.avgCost

/-- `getExecutedProfitTakingLevels`: re-derives the executed profit-taking
thresholds by scanning past `SELL` operations, recomputing each one's ROI
against the *current* `avgCost` and attributing it to the first configured
tier whose threshold is within `0.01` below that ROI. -/
def getExecutedProfitTakingLevels (s : FundTradingState) : List ℚ :=
  ((s.operationHistory.filter (fun op => op.action = TradingAction.SELL)).map
    (fun op =>
      let roi := (op.price - s.avgCost) / s.avgCost
      match PROFIT_TAKING_CONFIG.find? (fun c => roi ≥ c.roiThreshold - 1/100) with
      | some c => c.roiThreshold
      | none => 0)).filter (fun v => 0 < v)

/-- The profit-taking tier fired by the `for` loop of `evaluateOffensive`:
the first config whose threshold current ROI meets and that is not among
the re-derived executed thresholds. -/
def firedProfitConfig (s : FundTradingState) (roi : ℚ) : Option ProfitCfg :=
  PROFIT_TAKING_CONFIG.find?
    (fun c => roi ≥ c.roiThreshold ∧ c.roiThreshold ∉ getExecutedProfitTakingLevels s)

/-- `evaluateOffensive`: trailing stop, MA20 warning, then structured
profit-taking. -/
def evaluateOffensive (s : FundTradingState) (currentPrice ma20 roi : ℚ) :
    TradingSignal :=
  let drawdown := (s.peakPrice - currentPrice) / s.peakPrice
  if drawdown ≥ TRAILING_STOP_RATIO ∧ 0 < s.positionSize then
    ⟨TradingAction.SELL_ALL, s.positionSize / 10,
      Reason.trailingStop s.peakPrice drawdown, some roi, s.pyramidLevel⟩
  else if currentPrice < ma20 ∧ 0 < s.positionSize then
    ⟨TradingAction.HOLD, 0, Reason.ma20Warning currentPrice ma20,
      some roi, s.pyramidLevel⟩
  else
    match firedProfitConfig s roi with
    | some c =>
        ⟨TradingAction.SELL, ((⌈s.positionSize * c.sellRatio / 10⌉ : ℤ) : ℚ),
          Reason.profitTaking roi c.sellRatio, some roi, s.pyramidLevel⟩
    | none =>
        ⟨TradingAction.HOLD, 0, Reason.holding roi, some roi, s.pyramidLevel⟩

/-- The part of `evaluateDefensive` after the cooldown check: level-1
entry, full-position hold, or pyramid accumulation against
`lastBuyPrice`. -/
def evaluateDefensiveAfterCooldown (s : FundTradingState) (currentPrice : ℚ) :
    TradingSignal :=
  if s.pyramidLevel = 0 then
    ⟨TradingAction.BUY, (PYRAMID_CONFIG 1).shares, Reason.openLevel1, none, 1⟩
  else if s.pyramidLevel = 4 then
    ⟨TradingAction.HOLD, 0, Reason.fullPosition, none, s.pyramidLevel⟩
  else
    let nextLevel := s.pyramidLevel + 1
    let nextConfig := PYRAMID_CONFIG nextLevel
    let dropFromLastBuy := (s.lastBuyPrice - currentPrice) / s.lastBuyPrice
    if dropFromLastBuy ≥ nextConfig.dropTrigger then
      ⟨TradingAction.BUY, nextConfig.shares,
        Reason.pyramidBuy nextLevel dropFromLastBuy, none, nextLevel⟩
    else
      ⟨TradingAction.HOLD, 0,
        Reason.waitForDip (s.lastBuyPrice * (1 - nextConfig.dropTrigger)),
        some (calculateROI s currentPrice), s.pyramidLevel⟩

/-- `evaluateDefensive`: cooldown gate, then accumulation logic. -/
def evaluateDefensive (s : FundTradingState) (currentPrice : ℚ)
    (currentDate : ℕ) : TradingSignal :=
  match s.lastOpDate with
  | some lastOp =>
      if daysBetween lastOp currentDate < COOLDOWN_DAYS then
        ⟨TradingAction.HOLD, 0,
          Reason.cooldown (COOLDOWN_DAYS - daysBetween lastOp currentDate),
          none, s.pyramidLevel⟩
      else evaluateDefensiveAfterCooldown s currentPrice
  | none => evaluateDefensiveAfterCooldown s currentPrice

/-- The tail of `evaluate_market` after the logic-falsified and black-swan
guards: peak tracking, ROI, then offensive or defensive branch.  Returns
the signal together with the (possibly peak-updated) state. -/
def evaluateCore (s : FundTradingState) (currentPrice ma20 : ℚ)
    (currentDate : ℕ) : TradingSignal × FundTradingState :=
  let s1 := if s.peakPrice < currentPrice ∧ 0 < s.positionSize then
              {s with peakPrice := currentPrice} else s
  let roi := calculateROI s1 currentPrice
  if 0 < roi ∧ 0 < s1.positionSize then
    (evaluateOffensive s1 currentPrice ma20 roi, s1)
  else
    (evaluateDefensive s1 currentPrice currentDate, s1)

/-- `evaluate_market`: the full decision cascade. -/
def evaluate_market (s : FundTradingState) (currentPrice ma20 : ℚ)
    (currentDate : ℕ) (dailyChange : Option ℚ) :
    TradingSignal × FundTradingState :=
  if s.logicStatus = false then
    (⟨TradingAction.SELL_ALL, s.positionSize / 10, Reason.logicFalsified,
       none, s.pyramidLevel⟩, s)
  else
    match dailyChange with
    | some dc =>
        if dc ≤ -BLACK_SWAN_DROP then
          (⟨TradingAction.WAIT, 0, Reason.blackSwan dc, none, s.pyramidLevel⟩, s)
        else evaluateCore s currentPrice ma20 currentDate
    | none => evaluateCore s currentPrice ma20 currentDate

/-- `recordOperation`: append one operation record. -/
def recordOperation (s : FundTradingState) (action : TradingAction)
    (price shares : ℚ) (date : ℕ) : FundTradingState :=
  {s with operationHistory :=
    s.operationHistory ++ [⟨date, action, price, shares, s.positionSize⟩]}

/-- `executeBuy`. -/
def executeBuy (s : FundTradingState) (shares price : ℚ) (date : ℕ) :
    FundTradingState :=
  let previousCost := s.avgCost * s.positionSize
  let newCost := price * shares * 10
  let newPosition := min 100 (s.positionSize + shares * 10)
  let s' : FundTradingState :=
    {s with
      avgCost := if 0 < newPosition then (previousCost + newCost) / newPosition
                 else price,
      positionSize := newPosition,
      lastBuyPrice := price,
      peakPrice := max s.peakPrice price,
      lastOpDate := some date,
      pyramidLevel := min 4 (s.pyramidLevel + 1)}
  recordOperation s' TradingAction.BUY price shares date

/-- `resetState`: clear the cost/peak/level/last-buy fields on full close
(`lastOpDate` is *not* cleared). -/
def resetState (s : FundTradingState) : FundTradingState :=
  {s with avgCost := 0, peakPrice := 0, pyramidLevel := 0, lastBuyPrice := 0}

/-- `executeSell`. -/
def executeSell (s : FundTradingState) (shares price : ℚ) (date : ℕ) :
    FundTradingState :=
  let soldPosition := shares * 10
  let s1 : FundTradingState :=
    {s with positionSize := max 0 (s.positionSize - soldPosition),
            lastOpDate := some date}
  let s2 := if s1.positionSize = 0 then resetState s1 else s1
  recordOperation s2 TradingAction.SELL price shares date

/-- `executeSellAll`. -/
def executeSellAll (s : FundTradingState) (price : ℚ) (date : ℕ) :
    FundTradingState :=
  let shares := s.positionSize / 10
  let s1 : FundTradingState := {s with positionSize := 0, lastOpDate := some date}
  let s2 := resetState s1
  recordOperation s2 TradingAction.SELL_ALL price shares date

/-- C2: with `logicStatus = false`, `evaluate_market` returns `SELL_ALL`
with `positionSize / 10` shares, for every price, MA20, date and optional
daily change. -/
theorem c2_logic_falsified_sells_all (s : FundTradingState) (price ma20 : ℚ)
    (date : ℕ) (dc : Option ℚ) (h : s.logicStatus = false) :
    (evaluate_market s price ma20 date dc).1.action = TradingAction.SELL_ALL ∧
    (evaluate_market s price ma20 date dc).1.shares = s.positionSize / 10 := by
  simp [evaluate_market, h]

theorem c2_witness :
    (evaluate_market ⟨"f", 50, 80, 90, some 3, false, 3, [], 85⟩ 70 75 5
        (some (-(8/100)))).1.action = TradingAction.SELL_ALL ∧
    (evaluate_market ⟨"f", 50, 80, 90, some 3, false, 3, [], 85⟩ 70 75 5
        (some (-(8/100)))).1.shares = 5 := by
  have h := c2_logic_falsified_sells_all ⟨"f", 50, 80, 90, some 3, false, 3, [], 85⟩
    70 75 5 (some (-(8/100))) rfl
  exact ⟨h.1, by rw [h.2]; norm_num⟩

/-- C3: with `logicStatus = true` and a provided daily change at or below
`-0.07`, `evaluate_market` returns `WAIT` with 0 shares and leaves the
state unchanged. -/
theorem c3_black_swan_waits (s : FundTradingState) (price ma20 : ℚ)
    (date : ℕ) (dc : ℚ) (hl : s.logicStatus = true) (hdc : dc ≤ -(7/100)) :
    (evaluate_market s price ma20 date (some dc)).1.action = TradingAction.WAIT ∧
    (evaluate_market s price ma20 date (some dc)).1.shares = 0 ∧
    (evaluate_market s price ma20 date (some dc)).2 = s := by
  simp [evaluate_market, hl, BLACK_SWAN_DROP, hdc]

theorem c3_witness :
    (evaluate_market ⟨"f", 40, 100, 120, none, true, 2, [], 110⟩ 150 90 7
        (some (-(7/100)))).1.action = TradingAction.WAIT ∧
    (evaluate_market ⟨"f", 40, 100, 120, none, true, 2, [], 110⟩ 150 90 7
        (some (-(7/100)))).1.shares = 0 ∧
    (evaluate_market ⟨"f", 40, 100, 120, none, true, 2, [], 110⟩ 150 90 7
        (some (-(7/100)))).2 = ⟨"f", 40, 100, 120, none, true, 2, [], 110⟩ :=
  c3_black_swan_waits ⟨"f", 40, 100, 120, none, true, 2, [], 110⟩ 150 90 7
    (-(7/100)) rfl le_rfl

/-- C9: whenever `avgCost` or `positionSize` is zero — including the
inconsistent state with a positive position but zero average cost — the
ROI used by `evaluate_market` is 0. -/
theorem c9_roi_guarded (s : FundTradingState) (price : ℚ)
    (h : s.avgCost = 0 ∨ s.positionSize = 0) : calculateROI s price = 0 := by
  simp [calculateROI, h]

theorem c9_witness :
    calculateROI ⟨"f", 50, 0, 120, none, true, 3, [], 110⟩ 100 = 0 :=
  c9_roi_guarded ⟨"f", 50, 0, 120, none, true, 3, [], 110⟩ 100 (Or.inl rfl)

/-- C4: in the defensive branch with no cooldown active: level 0 buys 2
units unconditionally (level 1); level 4 holds; levels 1–3 buy the next
level's units when the drop from the last buy meets the next trigger and
otherwise hold, reporting the trigger price; the next-level triggers and
unit counts are (0.10, 2), (0.15, 3), (0.20, 3). -/
theorem c4_defensive_pyramid (s : FundTradingState) (price : ℚ) (date : ℕ)
    (hcd : ∀ d0, s.lastOpDate = some d0 → COOLDOWN_DAYS ≤ daysBetween d0 date) :
    (s.pyramidLevel = 0 →
      evaluateDefensive s price date =
        ⟨TradingAction.BUY, 2, Reason.openLevel1, none, 1⟩) ∧
    (s.pyramidLevel = 4 →
      evaluateDefensive s price date =
        ⟨TradingAction.HOLD, 0, Reason.fullPosition, none, 4⟩) ∧
    (∀ lvl : ℕ, (lvl = 1 ∨ lvl = 2 ∨ lvl = 3) → s.pyramidLevel = lvl →
      ((s.lastBuyPrice - price) / s.lastBuyPrice ≥ (PYRAMID_CONFIG (lvl+1)).dropTrigger →
        evaluateDefensive s price date =
          ⟨TradingAction.BUY, (PYRAMID_CONFIG (lvl+1)).shares,
            Reason.pyramidBuy (lvl+1) ((s.lastBuyPrice - price) / s.lastBuyPrice),
            none, lvl+1⟩) ∧
      ((s.lastBuyPrice - price) / s.lastBuyPrice < (PYRAMID_CONFIG (lvl+1)).dropTrigger →
        evaluateDefensive s price date =
          ⟨TradingAction.HOLD, 0,
            Reason.waitForDip (s.lastBuyPrice * (1 - (PYRAMID_CONFIG (lvl+1)).dropTrigger)),
            some (calculateROI s price), lvl⟩)) ∧
    ((PYRAMID_CONFIG 2).dropTrigger = 10/100 ∧ (PYRAMID_CONFIG 2).shares = 2) ∧
    ((PYRAMID_CONFIG 3).dropTrigger = 15/100 ∧ (PYRAMID_CONFIG 3).shares = 3) ∧
    ((PYRAMID_CONFIG 4).dropTrigger = 20/100 ∧ (PYRAMID_CONFIG 4).shares = 3) := by
  have hnc : evaluateDefensive s price date = evaluateDefensiveAfterCooldown s price := by
    unfold evaluateDefensive
    cases h : s.lastOpDate with
    | none => rfl
    | some d0 =>
        have := hcd d0 h
        simp [Nat.not_lt.mpr this]
  rw [hnc]
  refine ⟨?_, ?_, ?_, ⟨rfl, rfl⟩, ⟨rfl, rfl⟩, ⟨rfl, rfl⟩⟩
  · intro h0
    simp [evaluateDefensiveAfterCooldown, h0, PYRAMID_CONFIG]
  · intro h4
    simp [evaluateDefensiveAfterCooldown, h4]
  · intro lvl hl hs
    constructor
    · intro htrig
      rcases hl with h | h | h <;> subst h <;>
        simp [evaluateDefensiveAfterCooldown, hs, htrig]
    · intro htrig
      rcases hl with h | h | h <;> subst h <;>
        simp [evaluateDefensiveAfterCooldown, hs, not_le.mpr htrig]

theorem c4_witness :
    evaluateDefensive ⟨"f", 20, 100, 110, none, true, 1, [], 100⟩ 89 0 =
      ⟨TradingAction.BUY, (PYRAMID_CONFIG 2).shares,
        Reason.pyramidBuy 2 ((100 - 89) / 100), none, 2⟩ :=
  (((c4_defensive_pyramid ⟨"f", 20, 100, 110, none, true, 1, [], 100⟩ 89 0
      (fun d0 hd => nomatch hd)).2.2.1 1 (Or.inl rfl) rfl).1 (by norm_num [PYRAMID_CONFIG]))

/-- C6: in the defensive branch with `lastOpDate` set, a floored day
difference below 14 yields the cooldown `HOLD` with 0 shares and an
unchanged pyramid level; at exactly 14 days the cooldown no longer blocks
and the result is whatever the defensive logic returns without it. -/
theorem c6_cooldown_window (s : FundTradingState) (price : ℚ) (date d0 : ℕ)
    (h : s.lastOpDate = some d0) :
    (daysBetween d0 date < 14 →
      evaluateDefensive s price date =
        ⟨TradingAction.HOLD, 0, Reason.cooldown (14 - daysBetween d0 date),
          none, s.pyramidLevel⟩) ∧
    (daysBetween d0 date = 14 →
      evaluateDefensive s price date =
        evaluateDefensive {s with lastOpDate := none} price date) := by
  constructor
  · intro hlt
    simp [evaluateDefensive, h, COOLDOWN_DAYS, hlt]
  · intro heq
    simp only [evaluateDefensive, h, COOLDOWN_DAYS, heq]
    rfl

theorem c6_witness :
    (evaluateDefensive ⟨"f", 20, 100, 110, some 100, true, 1, [], 100⟩ 89 113).action =
      TradingAction.HOLD ∧
    (evaluateDefensive ⟨"f", 20, 100, 110, some 100, true, 1, [], 100⟩ 89 113).shares = 0 ∧
    (evaluateDefensive ⟨"f", 20, 100, 110, some 100, true, 1, [], 100⟩ 89 114).action =
      TradingAction.BUY := by
  have h13 := (c6_cooldown_window ⟨"f", 20, 100, 110, some 100, true, 1, [], 100⟩
    89 113 100 rfl).1 (by norm_num [daysBetween])
  have h14 := (c6_cooldown_window ⟨"f", 20, 100, 110, some 100, true, 1, [], 100⟩
    89 114 100 rfl).2 (by norm_num [daysBetween])
  rw [h13, h14]
  refine ⟨rfl, rfl, ?_⟩
  norm_num [evaluateDefensive, evaluateDefensiveAfterCooldown, PYRAMID_CONFIG]

/-- C5: in the offensive branch (positive ROI, positive position), a
drawdown from the peak of at least 8% returns `SELL_ALL` with
`positionSize / 10` shares, for every MA20 value and regardless of the
operation history — so it takes precedence over the MA20 warning and over
structured profit-taking. -/
theorem c5_trailing_stop_dominates (s : FundTradingState) (price ma20 : ℚ)
    (date : ℕ) (hl : s.logicStatus = true) (hpos : 0 < s.positionSize)
    (hroi : 0 < calculateROI s price) (hle : price ≤ s.peakPrice)
    (hdd : (s.peakPrice - price) / s.peakPrice ≥ 8/100) :
    (evaluate_market s price ma20 date none).1.action = TradingAction.SELL_ALL ∧
    (evaluate_market s price ma20 date none).1.shares = s.positionSize / 10 := by
  have hnlt : ¬ s.peakPrice < price := not_lt.mpr hle
  simp [evaluate_market, hl, evaluateCore, hnlt, hroi, hpos, evaluateOffensive,
    TRAILING_STOP_RATIO, hdd]

theorem c5_witness :
    (evaluate_market ⟨"f", 50, 100, 150, none, true, 3, [], 120⟩ 138 200 0
        none).1.action = TradingAction.SELL_ALL ∧
    (evaluate_market ⟨"f", 50, 100, 150, none, true, 3, [], 120⟩ 138 200 0
        none).1.shares = 5 := by
  have h := c5_trailing_stop_dominates ⟨"f", 50, 100, 150, none, true, 3, [], 120⟩
    138 200 0 rfl (by norm_num) (by norm_num [calculateROI]) (by norm_num)
    (by norm_num)
  exact ⟨h.1, by rw [h.2]; norm_num⟩

/-- Helper: inside the cooldown window the defensive branch holds with the
remaining-days reason and the current pyramid level. -/
theorem cooldown_hold (s : FundTradingState) (price : ℚ) (date d0 : ℕ)
    (h : s.lastOpDate = some d0) (hlt : daysBetween d0 date < 14) :
    evaluateDefensive s price date =
      ⟨TradingAction.HOLD, 0, Reason.cooldown (14 - daysBetween d0 date),
        none, s.pyramidLevel⟩ := by
  simp [evaluateDefensive, h, COOLDOWN_DAYS, hlt]

/-- Helper: with the thesis valid and a flat position, `evaluate_market`
reduces to the defensive branch and does not touch the state. -/
theorem evaluate_flat_is_defensive (s : FundTradingState) (price ma20 : ℚ)
    (date : ℕ) (hl : s.logicStatus = true) (hpos : s.positionSize = 0) :
    evaluate_market s price ma20 date none = (evaluateDefensive s price date, s) := by
  simp [evaluate_market, hl, evaluateCore, hpos, calculateROI]

/-- C10: full liquidation keeps `lastOpDate` while resetting the
cost/peak/level/last-buy fields, so any later evaluation fewer than 14
days after it that reaches the defensive branch is the cooldown `HOLD`;
an `executeSell` that closes the position behaves the same way. -/
theorem c10_liquidation_keeps_cooldown (s : FundTradingState) (price : ℚ)
    (d : ℕ) (price2 ma20 : ℚ) (d2 : ℕ) (hl : s.logicStatus = true)
    (hd : daysBetween d d2 < 14) :
    (executeSellAll s price d).lastOpDate = some d ∧
    (executeSellAll s price d).avgCost = 0 ∧
    (executeSellAll s price d).peakPrice = 0 ∧
    (executeSellAll s price d).pyramidLevel = 0 ∧
    (executeSellAll s price d).lastBuyPrice = 0 ∧
    (evaluate_market (executeSellAll s price d) price2 ma20 d2 none).1 =
      ⟨TradingAction.HOLD, 0, Reason.cooldown (14 - daysBetween d d2), none, 0⟩ ∧
    (∀ shares : ℚ, s.positionSize ≤ shares * 10 →
      (executeSell s shares price d).lastOpDate = some d ∧
      (executeSell s shares price d).avgCost = 0 ∧
      (executeSell s shares price d).peakPrice = 0 ∧
      (executeSell s shares price d).pyramidLevel = 0 ∧
      (executeSell s shares price d).lastBuyPrice = 0) := by
  refine ⟨rfl, rfl, rfl, rfl, rfl, ?_, ?_⟩
  · rw [evaluate_flat_is_defensive (executeSellAll s price d) price2 ma20 d2 hl rfl]
    exact cooldown_hold (executeSellAll s price d) price2 d2 d rfl hd
  · intro shares hclose
    have h0 : max 0 (s.positionSize - shares * 10) = (0:ℚ) :=
      max_eq_left (by linarith)
    simp [executeSell, recordOperation, resetState, h0]

theorem c10_witness :
    (executeSellAll ⟨"f", 70, 90, 140, some 0, true, 3, [], 95⟩ 100 50).lastOpDate =
      some 50 ∧
    (executeSellAll ⟨"f", 70, 90, 140, some 0, true, 3, [], 95⟩ 100 50).pyramidLevel = 0 ∧
    (evaluate_market (executeSellAll ⟨"f", 70, 90, 140, some 0, true, 3, [], 95⟩ 100 50)
        120 80 60 none).1.action = TradingAction.HOLD := by
  have h := c10_liquidation_keeps_cooldown ⟨"f", 70, 90, 140, some 0, true, 3, [], 95⟩
    100 50 120 80 60 rfl (by norm_num [daysBetween])
  exact ⟨h.1, h.2.2.2.1, by rw [h.2.2.2.2.2.1]⟩

/-- C7 counterexample: from a full position (100%) the resulting `avgCost`
of `executeBuy` is *not* the weighted average of the previous cost basis
and the new purchase — the source divides by the capped position
`min 100 (positionSize + units*10)`, not by `positionSize + units*10`. -/
theorem c7_counterexample :
    ¬ ((executeBuy ⟨"f", 100, 100, 120, some 0, true, 4, [], 100⟩ 2 200 1).avgCost =
        (100 * 100 + 200 * 2 * 10) / (100 + 2 * 10)) := by
  have h : (executeBuy ⟨"f", 100, 100, 120, some 0, true, 4, [], 100⟩ 2 200 1).avgCost
      = 140 := by
    norm_num [executeBuy, recordOperation]
  rw [h]
  norm_num

/-- C7 (amended): for every state with a nonnegative position and every
positive integer unit count, `executeBuy` sets `avgCost` to the combined
cost divided by the *capped* new position `min 100 (positionSize +
units*10)` — which is the weighted average exactly when `positionSize +
units*10 ≤ 100` — and updates position, last-buy price, peak, date and
pyramid level as specified, appending exactly one `BUY` record. -/
theorem c7_executeBuy_postconditions (s : FundTradingState) (price : ℚ)
    (date : ℕ) (n : ℕ) (hn : 0 < n) (hpos : 0 ≤ s.positionSize) :
    (executeBuy s (n : ℚ) price date).avgCost =
      (s.avgCost * s.positionSize + price * (n : ℚ) * 10) /
        min 100 (s.positionSize + (n : ℚ) * 10) ∧
    (executeBuy s (n : ℚ) price date).positionSize =
      min 100 (s.positionSize + (n : ℚ) * 10) ∧
    (executeBuy s (n : ℚ) price date).lastBuyPrice = price ∧
    (executeBuy s (n : ℚ) price date).peakPrice = max s.peakPrice price ∧
    (executeBuy s (n : ℚ) price date).lastOpDate = some date ∧
    (executeBuy s (n : ℚ) price date).pyramidLevel = min 4 (s.pyramidLevel + 1) ∧
    (executeBuy s (n : ℚ) price date).operationHistory =
      s.operationHistory ++
        [⟨date, TradingAction.BUY, price, (n : ℚ),
          min 100 (s.positionSize + (n : ℚ) * 10)⟩] ∧
    (s.positionSize + (n : ℚ) * 10 ≤ 100 →
      (executeBuy s (n : ℚ) price date).avgCost =
        (s.avgCost * s.positionSize + price * (n : ℚ) * 10) /
          (s.positionSize + (n : ℚ) * 10)) := by
  have hn10 : (10 : ℚ) ≤ (n : ℚ) * 10 := by
    have : (1 : ℚ) ≤ (n : ℚ) := by exact_mod_cast hn
    linarith
  have hposnew : 0 < min 100 (s.positionSize + (n : ℚ) * 10) := by
    have : (10 : ℚ) ≤ s.positionSize + (n : ℚ) * 10 := by linarith
    have h100 : (0 : ℚ) < 100 := by norm_num
    exact lt_min h100 (by linarith)
  refine ⟨?_, rfl, rfl, rfl, rfl, rfl, rfl, ?_⟩
  · simp [executeBuy, recordOperation, hposnew]
  · intro hle
    have hmin : min 100 (s.positionSize + (n : ℚ) * 10) =
        s.positionSize + (n : ℚ) * 10 := min_eq_right hle
    have hposnew2 : (0 : ℚ) < s.positionSize + (n : ℚ) * 10 := by linarith
    simp [executeBuy, recordOperation, hmin, hposnew2]

theorem c7_witness :
    (executeBuy (initState "f") 2 100 1).positionSize = 20 ∧
    (executeBuy (initState "f") 2 100 1).pyramidLevel = 1 ∧
    (executeBuy (initState "f") 2 100 1).avgCost = 100 ∧
    (executeBuy (initState "f") 2 100 1).lastBuyPrice = 100 := by
  have h := c7_executeBuy_postconditions (initState "f") 100 1 2 (by norm_num)
    (by norm_num [initState])
  have h2 : ((2 : ℕ) : ℚ) = 2 := by norm_num
  rw [h2] at h
  refine ⟨?_, ?_, ?_, h.2.2.1⟩
  · rw [h.2.1]
    norm_num [initState]
  · rw [h.2.2.2.2.2.1]
    norm_num [initState]
  · rw [h.1]
    norm_num [initState]

/-- One call to an execute method of the engine. -/
inductive EngineOp where
  | buy (shares price : ℚ) (date : ℕ)
  | sell (shares price : ℚ) (date : ℕ)
  | sellAll (price : ℚ) (date : ℕ)
deriving DecidableEq, Repr

/-- Apply one execute call to a state. -/
def applyOp (s : FundTradingState) : EngineOp → FundTradingState
  | EngineOp.buy shares price date => executeBuy s shares price date
  | EngineOp.sell shares price date => executeSell s shares price date
  | EngineOp.sellAll price date => executeSellAll s price date

/-- The share counts of buys and sells are positive integers. -/
def ValidOp : EngineOp → Prop
  | EngineOp.buy shares _ _ => ∃ n : ℕ, 0 < n ∧ shares = (n : ℚ)
  | EngineOp.sell shares _ _ => ∃ n : ℕ, 0 < n ∧ shares = (n : ℚ)
  | EngineOp.sellAll _ _ => True

/-- The state invariant of C8: the position is a multiple of 10 in
[0, 100], the pyramid level is in 0–4, the level is 0 exactly when the
position is 0, and a closed position has `avgCost`, `peakPrice` and
`lastBuyPrice` reset to 0 together. -/
def Invariant (s : FundTradingState) : Prop :=
  0 ≤ s.positionSize ∧ s.positionSize ≤ 100 ∧
  (∃ k : ℕ, s.positionSize = 10 * (k : ℚ)) ∧
  s.pyramidLevel ≤ 4 ∧
  (s.pyramidLevel = 0 ↔ s.positionSize = 0) ∧
  (s.positionSize = 0 → s.avgCost = 0 ∧ s.peakPrice = 0 ∧ s.lastBuyPrice = 0)

/-- Helper: a sell of at least the whole position closes it and resets the
cost/peak/level/last-buy fields. -/
theorem executeSell_closes (s : FundTradingState) (q price : ℚ) (date : ℕ)
    (hc : s.positionSize ≤ q * 10) :
    executeSell s q price date =
      ⟨s.fundCode, 0, 0, 0, some date, s.logicStatus, 0,
        s.operationHistory ++ [⟨date, TradingAction.SELL, price, q, 0⟩], 0⟩ := by
  have hmax : max 0 (s.positionSize - q * 10) = (0:ℚ) := max_eq_left (by linarith)
  simp [executeSell, recordOperation, resetState, hmax]

/-- Helper: a sell of less than the whole position only shrinks it. -/
theorem executeSell_shrinks (s : FundTradingState) (q price : ℚ) (date : ℕ)
    (hc : q * 10 < s.positionSize) :
    executeSell s q price date =
      ⟨s.fundCode, s.positionSize - q * 10, s.avgCost, s.peakPrice, some date,
        s.logicStatus, s.pyramidLevel,
        s.operationHistory ++
          [⟨date, TradingAction.SELL, price, q, s.positionSize - q * 10⟩],
        s.lastBuyPrice⟩ := by
  have hmax : max 0 (s.positionSize - q * 10) = s.positionSize - q * 10 :=
    max_eq_right (by linarith)
  have hne : s.positionSize - q * 10 ≠ 0 := ne_of_gt (by linarith)
  simp [executeSell, recordOperation, resetState, hmax, hne]

/-- Helper: `executeBuy` with a positive integer unit count preserves the
invariant. -/
theorem invariant_executeBuy (s : FundTradingState) (n : ℕ) (price : ℚ)
    (date : ℕ) (hn : 0 < n) (h : Invariant s) :
    Invariant (executeBuy s (n : ℚ) price date) := by
  obtain ⟨h0, h100, ⟨k, hk⟩, hlvl, hiff, hreset⟩ := h
  have hn1 : (1 : ℚ) ≤ (n : ℚ) := by exact_mod_cast hn
  have hposnew : (0 : ℚ) < min 100 (s.positionSize + (n : ℚ) * 10) :=
    lt_min (by norm_num) (by linarith)
  have e1 : (executeBuy s (n : ℚ) price date).positionSize =
      min 100 (s.positionSize + (n : ℚ) * 10) := rfl
  have e2 : (executeBuy s (n : ℚ) price date).pyramidLevel =
      min 4 (s.pyramidLevel + 1) := rfl
  unfold Invariant
  rw [e1, e2]
  refine ⟨le_of_lt hposnew, min_le_left _ _, ?_, min_le_left _ _, ?_, ?_⟩
  · by_cases hkn : k + n ≤ 10
    · refine ⟨k + n, ?_⟩
      have heq : s.positionSize + (n : ℚ) * 10 = 10 * ((k + n : ℕ) : ℚ) := by
        rw [hk]; push_cast; ring
      rw [heq]
      refine min_eq_right ?_
      have hc : ((k + n : ℕ) : ℚ) ≤ 10 := by exact_mod_cast hkn
      linarith
    · refine ⟨10, ?_⟩
      have heq : s.positionSize + (n : ℚ) * 10 = 10 * ((k + n : ℕ) : ℚ) := by
        rw [hk]; push_cast; ring
      have hc : (10 : ℚ) < ((k + n : ℕ) : ℚ) := by
        exact_mod_cast Nat.lt_of_not_le hkn
      rw [heq, min_eq_left (by linarith)]
      norm_num
  · apply iff_of_false
    · have hge : 1 ≤ min 4 (s.pyramidLevel + 1) :=
        le_min (by norm_num) (Nat.succ_le_succ (Nat.zero_le _))
      omega
    · exact ne_of_gt hposnew
  · intro hz
    exact absurd hz (ne_of_gt hposnew)

/-- Helper: `executeSell` with a positive integer unit count preserves the
invariant. -/
theorem invariant_executeSell (s : FundTradingState) (n : ℕ) (price : ℚ)
    (date : ℕ) (hn : 0 < n) (h : Invariant s) :
    Invariant (executeSell s (n : ℚ) price date) := by
  obtain ⟨h0, h100, ⟨k, hk⟩, hlvl, hiff, hreset⟩ := h
  have hn1 : (1 : ℚ) ≤ (n : ℚ) := by exact_mod_cast hn
  rcases le_or_lt s.positionSize ((n : ℚ) * 10) with hc | hc
  · rw [executeSell_closes s (n : ℚ) price date hc]
    exact ⟨le_refl 0, by show (0:ℚ) ≤ 100; norm_num,
      ⟨0, by show (0:ℚ) = 10 * ((0:ℕ) : ℚ); norm_num⟩, Nat.zero_le 4,
      ⟨fun _ => rfl, fun _ => rfl⟩, fun _ => ⟨rfl, rfl, rfl⟩⟩
  · rw [executeSell_shrinks s (n : ℚ) price date hc]
    have hkn : n < k := by
      have hq : (n : ℚ) < (k : ℚ) := by
        rw [hk] at hc
        linarith
      exact_mod_cast hq
    refine ⟨?_, ?_, ⟨k - n, ?_⟩, hlvl, ?_, ?_⟩
    · show (0:ℚ) ≤ s.positionSize - (n : ℚ) * 10
      linarith
    · show s.positionSize - (n : ℚ) * 10 ≤ 100
      linarith
    · show s.positionSize - (n : ℚ) * 10 = 10 * ((k - n : ℕ) : ℚ)
      rw [hk, Nat.cast_sub (le_of_lt hkn)]
      ring
    · show s.pyramidLevel = 0 ↔ s.positionSize - (n : ℚ) * 10 = 0
      apply iff_of_false
      · intro hz
        have hp0 : s.positionSize = 0 := hiff.mp hz
        rw [hp0] at hc
        linarith
      · exact ne_of_gt (by linarith)
    · intro hz
      exact absurd (show s.positionSize - (n : ℚ) * 10 = 0 from hz)
        (ne_of_gt (by linarith))

/-- Helper: `executeSellAll` preserves the invariant. -/
theorem invariant_executeSellAll (s : FundTradingState) (price : ℚ)
    (date : ℕ) : Invariant (executeSellAll s price date) :=
  ⟨le_refl 0, by show (0:ℚ) ≤ 100; norm_num,
    ⟨0, by show (0:ℚ) = 10 * ((0:ℕ) : ℚ); norm_num⟩, Nat.zero_le 4,
    ⟨fun _ => rfl, fun _ => rfl⟩, fun _ => ⟨rfl, rfl, rfl⟩⟩

/-- Helper: folding valid operations preserves the invariant. -/
theorem foldl_applyOp_invariant (ops : List EngineOp) (s : FundTradingState)
    (hs : Invariant s) (hv : ∀ op ∈ ops, ValidOp op) :
    Invariant (List.foldl applyOp s ops) := by
  induction ops generalizing s with
  | nil => exact hs
  | cons op rest ih =>
      simp only [List.foldl_cons]
      apply ih
      · have hop := hv op (List.mem_cons_self op rest)
        cases op with
        | buy q price date =>
            obtain ⟨n, hn, hq⟩ := hop
            subst hq
            exact invariant_executeBuy s n price date hn hs
        | sell q price date =>
            obtain ⟨n, hn, hq⟩ := hop
            subst hq
            exact invariant_executeSell s n price date hn hs
        | sellAll price date => exact invariant_executeSellAll s price date
      · intro o ho
        exact hv o (List.mem_cons_of_mem op ho)

/-- C8: every state reachable from the fresh state by execute calls with
positive integer share counts satisfies the invariant: position a multiple
of 10 in [0, 100], level 0–4, level 0 iff flat, and cost/peak/last-buy
zero together whenever the position closes. -/
theorem c8_reachable_states_invariant (fc : String) (ops : List EngineOp)
    (hv : ∀ op ∈ ops, ValidOp op) :
    Invariant (List.foldl applyOp (initState fc) ops) := by
  apply foldl_applyOp_invariant ops (initState fc) ?_ hv
  exact ⟨le_refl 0, by show (0:ℚ) ≤ 100; norm_num,
    ⟨0, by show (0:ℚ) = 10 * ((0:ℕ) : ℚ); norm_num⟩, Nat.zero_le 4,
    ⟨fun _ => rfl, fun _ => rfl⟩, fun _ => ⟨rfl, rfl, rfl⟩⟩

theorem c8_witness :
    Invariant (List.foldl applyOp (initState "f")
      [EngineOp.buy 2 100 0, EngineOp.sell 1 120 20, EngineOp.sellAll 130 40]) := by
  apply c8_reachable_states_invariant
  intro op hop
  fin_cases hop
  · exact ⟨2, by norm_num, by norm_num⟩
  · exact ⟨1, by norm_num, by norm_num⟩
  · trivial

/-- The concrete run of C1: full position at `avgCost` 100, price constant
at 135 (ROI 35%), peak 135, MA20 100, no black swan. -/
def c1State : FundTradingState := ⟨"f", 100, 100, 135, none, true, 4, [], 80⟩

/-- State after executing the first SELL signal (2 units at 135). -/
def c1s1 : FundTradingState := executeSell c1State 2 135 0

/-- State after executing the second SELL signal (3 units at 135). -/
def c1s2 : FundTradingState := executeSell c1s1 3 135 1

theorem c1s1_eq :
    c1s1 = ⟨"f", 80, 100, 135, some 0, true, 4,
      [⟨0, TradingAction.SELL, 135, 2, 80⟩], 80⟩ := by
  rw [c1s1, executeSell_shrinks c1State 2 135 0 (by norm_num [c1State])]
  simp [c1State]
  norm_num

theorem c1s2_eq :
    c1s2 = ⟨"f", 50, 100, 135, some 1, true, 4,
      [⟨0, TradingAction.SELL, 135, 2, 80⟩,
       ⟨1, TradingAction.SELL, 135, 3, 50⟩], 80⟩ := by
  rw [c1s2, c1s1_eq, executeSell_shrinks _ 3 135 1 (by norm_num)]
  norm_num

/-- C1: the at-most-once property of the profit-taking tiers fails on the
code.  In the run where every SELL signal is executed via `executeSell` at
the signal's price and the position is never fully closed, the 30% tier
fires on both the second and the third evaluation: every past sell is
re-attributed to the lowest tier whose threshold is within 0.01 of its
ROI, so the 30% tier is never recorded as executed. -/
theorem c1_tier_fires_twice :
    (evaluate_market c1State 135 100 0 none).1.action = TradingAction.SELL ∧
    (evaluate_market c1State 135 100 0 none).1.shares = 2 ∧
    (evaluate_market c1State 135 100 0 none).2 = c1State ∧
    firedProfitConfig c1State (calculateROI c1State 135) = some ⟨15/100, 20/100⟩ ∧
    (evaluate_market c1s1 135 100 1 none).1.action = TradingAction.SELL ∧
    (evaluate_market c1s1 135 100 1 none).1.shares = 3 ∧
    (evaluate_market c1s1 135 100 1 none).2 = c1s1 ∧
    firedProfitConfig c1s1 (calculateROI c1s1 135) = some ⟨30/100, 30/100⟩ ∧
    (evaluate_market c1s2 135 100 2 none).1.action = TradingAction.SELL ∧
    (evaluate_market c1s2 135 100 2 none).2 = c1s2 ∧
    firedProfitConfig c1s2 (calculateROI c1s2 135) = some ⟨30/100, 30/100⟩ ∧
    0 < c1s1.positionSize ∧ 0 < c1s2.positionSize := by
  have hceil : ((⌈(12:ℚ)/5⌉ : ℤ) : ℚ) = 3 := by
    have h : (⌈(12:ℚ)/5⌉ : ℤ) = 3 := by
      rw [Int.ceil_eq_iff]
      norm_num
    rw [h]
    norm_num
  refine ⟨?_, ?_, ?_, ?_, ?_, ?_, ?_, ?_, ?_, ?_, ?_, ?_, ?_⟩ <;>
    norm_num [hceil, c1s1_eq, c1s2_eq, evaluate_market, evaluateCore,
      evaluateOffensive, calculateROI, firedProfitConfig,
      getExecutedProfitTakingLevels, PROFIT_TAKING_CONFIG,
      TRAILING_STOP_RATIO, List.find?, List.filter, List.map, c1State]

end AlphaFund
